import Mathlib

/-!
Verification of the attendance/correction core of the
jeyspecialneedscentre backend.

Shallow embedding conventions:
* Naive local datetimes are integers counting seconds; a calendar date is
  the day index `d`, and `combine d t = d * 86400 + t` mirrors
  `datetime.combine(date, time)` where `t` is seconds since midnight.
* `timeOfDay ts` mirrors `.time()` on a datetime, `dateOf ts` mirrors
  `.date()`.
* `total_hours` (a two-decimal `Decimal` in the source) is kept in
  centi-hours as an integer; `pythonRound num den` is round-half-to-even
  of the rational `num / den`, mirroring Python's `round(x, 2)` applied
  to `total_seconds() / 3600` (scaled by 100).
* Each HTTP endpoint body is embedded as a pure function from its inputs
  and the relevant database state to an `Except`-style response together
  with the post-state; the database rows touched by an operation are
  passed explicitly.
-/

def combine (d t : Int) : Int := d * 86400 + t

def timeOfDay (ts : Int) : Int := Int.emod ts 86400

def dateOf (ts : Int) : Int := Int.ediv ts 86400

/-- Round-half-to-even of `num / den` (for `den > 0`), as Python's `round`. -/
def pythonRound (num den : Int) : Int :=
  let q := Int.ediv num den
  let r := Int.emod num den
  if 2 * r < den then q
  else if den < 2 * r then q + 1
  else if Int.emod q 2 = 0 then q
  else q + 1

/-- `round((check_out - check_in).total_seconds() / 3600, 2)`, in centi-hours. -/
def computeTotalHours (checkIn checkOut : Int) : Int :=
  pythonRound ((checkOut - checkIn) * 100) 3600

inductive AttStatus
  | present
  | absent
  | did_not_checkout
  deriving DecidableEq

inductive CheckinStatus
  | on_time
  | late
  | very_late
  | no_data
  deriving DecidableEq

inductive ReqStatus
  | pending
  | approved
  | rejected
  deriving DecidableEq

inductive Role
  | therapist
  | supervisor
  | hr
  | superadmin
  deriving DecidableEq

/-- The fields of `accounts.CustomUser` used by the attendance engine:
`id`, `login_time` (seconds since midnight) and `grace_time` (minutes). -/
structure Employee where
  id : Nat
  loginTime : Int
  graceTime : Int
  deriving DecidableEq

/-- `attendance.models.AttendanceLog`. -/
structure AttendanceLog where
  employee : Nat
  checkInTime : Option Int
  checkOutTime : Option Int
  date : Int
  status : AttStatus
  checkinStatus : CheckinStatus
  totalHours : Int
  needsCheckoutCorrection : Bool
  autoCheckout : Bool
  deriving DecidableEq

/-- `AttendanceLog._calculate_checkin_status` (models.py:91-113): compares
the tz-stripped check-in instant against `combine(date, login_time)`,
`+ grace_time` minutes, and a fixed `+ 30` minutes very-late threshold. -/
def calcCheckinStatus (emp : Employee) (date : Int) (checkIn : Option Int) :
    CheckinStatus :=
  match checkIn with
  | none => .no_data
  | some t =>
    let expectedTime := combine date emp.loginTime
    let graceTime := expectedTime + 60 * emp.graceTime
    let veryLateTime := expectedTime + 60 * 30
    if t ≤ expectedTime then .on_time
    else if t ≤ graceTime then .on_time
    else if t ≤ veryLateTime then .late
    else .very_late

/-- `attendance.views.utils.get_checkin_status` (utils.py:22-34): the
grace deadline is `expected + grace` minutes, the late deadline one hour
beyond the grace deadline. -/
def get_checkin_status (checkInTime expectedTime graceMinutes : Int) :
    CheckinStatus :=
  let graceDeadline := expectedTime + 60 * graceMinutes
  let lateDeadline := graceDeadline + 3600
  if checkInTime ≤ graceDeadline then .on_time
  else if checkInTime ≤ lateDeadline then .late
  else .very_late

/-- `AttendanceLog.save` (models.py:73-89): recomputes `total_hours`,
`status` and `needs_checkout_correction` when both timestamps are set,
flags the record for correction when only check-in is set, and recomputes
`checkin_status` whenever check-in is present. -/
def AttendanceLog.save (emp : Employee) (log : AttendanceLog) :
    AttendanceLog :=
  let log1 :=
    match log.checkInTime, log.checkOutTime with
    | some ci, some co =>
      { log with
        totalHours := computeTotalHours ci co
        status := .present
        needsCheckoutCorrection := false }
    | some _, none =>
      { log with
        status := .did_not_checkout
        needsCheckoutCorrection := true }
    | none, _ => log
  match log1.checkInTime with
  | some _ => { log1 with checkinStatus := calcCheckinStatus emp log1.date log1.checkInTime }
  | none => log1

/-- `attendance.models.CheckoutRequest`.  `requestedCheckoutTime` is a
time-of-day in seconds; `processedAt` a timestamp. -/
structure CheckoutRequest where
  therapist : Nat
  supervisor : Nat
  requestedCheckoutTime : Int
  reason : String
  status : ReqStatus
  processedAt : Option Int
  supervisorNotes : String
  createdAt : Int
  deriving DecidableEq

/-- `attendance.models.LeaveApplication` (the fields the leave-overlap
rule reads and writes). -/
structure LeaveApplication where
  employee : Nat
  startDate : Int
  endDate : Int
  status : ReqStatus
  leaveDays : Int
  deriving DecidableEq

inductive ApiErr
  | pastCutoff
  | noActiveCheckIn
  | alreadyOut
  | alreadyCheckedIn
  | unauthorized
  | badStatus
  | notPending
  | noCorrectionNeeded
  | duplicateRequest
  | noSupervisor
  | invalidLeaveType
  | startAfterEnd
  | pastStartDate
  | overlappingLeave
  | checkoutBeforeCheckin
  | checkoutAfterCutoff
  | notPastDate
  deriving DecidableEq

def isOkE {ε α : Type} : Except ε α → Bool
  | .ok _ => true
  | .error _ => false

/-- The open-record filter
`filter(employee=user, date=today, check_in_time__isnull=False,
check_out_time__isnull=True)` shared by the check-in and checkout views. -/
def openFor (empId : Nat) (today : Int) (l : AttendanceLog) : Bool :=
  decide (l.employee = empId) && l.checkInTime.isSome
    && l.checkOutTime.isNone && decide (l.date = today)

def ciVal (l : AttendanceLog) : Int := l.checkInTime.getD 0

/-- `.latest('check_in_time')`: the element with maximal check-in time,
kept with its position in the stored list. -/
def pickLatest : List (Nat × AttendanceLog) → Option (Nat × AttendanceLog)
  | [] => none
  | p :: ps =>
    match pickLatest ps with
    | none => some p
    | some q => if ciVal q.2 < ciVal p.2 then some p else some q

/-- `checkout_button` (attendance_views.py:21-84): 18:00 cutoff first,
then select today's latest open record, stamp check-out, clear the
correction flag, recompute hours, and run the model save hook. -/
def checkout_button (emp : Employee) (now : Int)
    (logs : List AttendanceLog) :
    Except ApiErr AttendanceLog × List AttendanceLog :=
  if 64800 < timeOfDay now then (.error .pastCutoff, logs)
  else
    let today := dateOf now
    match pickLatest ((logs.enum).filter fun p => openFor emp.id today p.2) with
    | none => (.error .noActiveCheckIn, logs)
    | some (i, sel) =>
      if sel.checkOutTime.isSome then (.error .alreadyOut, logs)
      else
        let sel1 := { sel with checkOutTime := some now, needsCheckoutCorrection := false }
        let sel2 :=
          match sel.checkInTime with
          | some ci => { sel1 with totalHours := computeTotalHours ci now }
          | none => sel1
        let fin := sel2.save emp
        (.ok fin, logs.set i fin)

/-- `AttendanceLogViewSet.checkout` (viewsets.py:101-134): same cutoff and
record selection, but only sets `check_out_time` and relies on the model
save hook for the derived fields. -/
def viewset_checkout (emp : Employee) (now : Int)
    (logs : List AttendanceLog) :
    Except ApiErr AttendanceLog × List AttendanceLog :=
  if 64800 < timeOfDay now then (.error .pastCutoff, logs)
  else
    let today := dateOf now
    match pickLatest ((logs.enum).filter fun p => openFor emp.id today p.2) with
    | none => (.error .noActiveCheckIn, logs)
    | some (i, sel) =>
      let fin := AttendanceLog.save emp { sel with checkOutTime := some now }
      (.ok fin, logs.set i fin)

/-- The attendance-creation core of `scan_qr_code` (qr_views.py:146-185),
after QR payload validation: reject when an open record exists today,
otherwise create a fresh row (which runs the save hook), then compute the
view's own classification (grace deadline + 1h) and save again. -/
def scan_checkin (emp : Employee) (now : Int)
    (logs : List AttendanceLog) :
    Except ApiErr AttendanceLog × List AttendanceLog :=
  let today := dateOf now
  if logs.any (openFor emp.id today) then (.error .alreadyCheckedIn, logs)
  else
    let created := AttendanceLog.save emp
      { employee := emp.id
        checkInTime := some now
        checkOutTime := none
        date := today
        status := .present
        checkinStatus := .on_time
        totalHours := 0
        needsCheckoutCorrection := false
        autoCheckout := false }
    let expectedTime := combine today emp.loginTime + 60 * emp.graceTime
    let viewStatus :=
      if now ≤ expectedTime then CheckinStatus.on_time
      else if now ≤ expectedTime + 3600 then CheckinStatus.late
      else CheckinStatus.very_late
    let fin := AttendanceLog.save emp { created with checkinStatus := viewStatus }
    (.ok fin, logs ++ [fin])

/-- `request_checkout_correction` (checkout_views.py:20-102), after the
required-field and time-format checks: the record (already resolved with
`employee=user`) must be flagged for correction, no request may exist for
it, and the user must have a supervisor; the request is then created via
`objects.create`, which never invokes `CheckoutRequest.clean`. -/
def request_checkout_correction (userId : Nat) (userSupervisor : Option Nat)
    (log : AttendanceLog) (requestExists : Bool)
    (requestedTime : Int) (reason : String) (now : Int) :
    Except ApiErr CheckoutRequest :=
  if !log.needsCheckoutCorrection then .error .noCorrectionNeeded
  else if requestExists then .error .duplicateRequest
  else
    match userSupervisor with
    | none => .error .noSupervisor
    | some sup =>
      .ok
        { therapist := userId
          supervisor := sup
          requestedCheckoutTime := requestedTime
          reason := reason
          status := .pending
          processedAt := none
          supervisorNotes := ""
          createdAt := now }

/-- `CheckoutRequest.clean` (models.py:180-193): requested time must be
after the record's check-in time-of-day, at most 18:00, and the record's
date strictly in the past. -/
def CheckoutRequest.clean (req : CheckoutRequest) (log : AttendanceLog)
    (today : Int) : Except ApiErr Unit :=
  if (match log.checkInTime with
      | some ci => decide (req.requestedCheckoutTime ≤ timeOfDay ci)
      | none => false) then
    .error .checkoutBeforeCheckin
  else if 64800 < req.requestedCheckoutTime then .error .checkoutAfterCutoff
  else if today ≤ log.date then .error .notPastDate
  else .ok ()

/-- `update_checkout_request` (checkout_views.py:174-252): role gate,
status-value gate, supervisor-scope gate, pending gate; then the request
row is updated, and on approval the attendance row gets the combined
checkout datetime, a cleared correction flag, recomputed hours, and the
save hook. -/
def update_checkout_request (role : Role) (userId : Nat)
    (newStatus : ReqStatus) (notes : String) (now : Int) (emp : Employee)
    (req : CheckoutRequest) (log : AttendanceLog) :
    Except ApiErr Unit × CheckoutRequest × AttendanceLog :=
  if ¬(role = .supervisor ∨ role = .hr ∨ role = .superadmin) then
    (.error .unauthorized, req, log)
  else if ¬(newStatus = .approved ∨ newStatus = .rejected) then
    (.error .badStatus, req, log)
  else if role = .supervisor ∧ req.supervisor ≠ userId then
    (.error .unauthorized, req, log)
  else if req.status ≠ .pending then (.error .notPending, req, log)
  else
    let req1 := { req with
      status := newStatus
      supervisorNotes := notes
      processedAt := some now }
    if newStatus = .approved then
      let checkoutDT := combine log.date req.requestedCheckoutTime
      let log1 := { log with
        checkOutTime := some checkoutDT
        needsCheckoutCorrection := false }
      let log2 :=
        match log.checkInTime with
        | some ci => { log1 with totalHours := computeTotalHours ci checkoutDT }
        | none => log1
      (.ok (), req1, log2.save emp)
    else (.ok (), req1, log)

/-- `CheckoutRequestViewSet.approve` (viewsets.py:319-352): role gate and
pending gate; on success marks the request approved and writes the
combined checkout datetime into the attendance row via the save hook. -/
def viewset_request_approve (role : Role) (notes : String) (now : Int)
    (emp : Employee) (req : CheckoutRequest) (log : AttendanceLog) :
    Except ApiErr Unit × CheckoutRequest × AttendanceLog :=
  if ¬(role = .supervisor ∨ role = .hr ∨ role = .superadmin) then
    (.error .unauthorized, req, log)
  else if req.status ≠ .pending then (.error .notPending, req, log)
  else
    let req1 := { req with
      status := .approved
      processedAt := some now
      supervisorNotes := notes }
    let checkoutDT := combine log.date req.requestedCheckoutTime
    let log1 := AttendanceLog.save emp { log with checkOutTime := some checkoutDT }
    (.ok (), req1, log1)

/-- `CheckoutRequestViewSet.reject` (viewsets.py:354-377): role gate and
pending gate; only the request row changes. -/
def viewset_request_reject (role : Role) (notes : String) (now : Int)
    (req : CheckoutRequest) (log : AttendanceLog) :
    Except ApiErr Unit × CheckoutRequest × AttendanceLog :=
  if ¬(role = .supervisor ∨ role = .hr ∨ role = .superadmin) then
    (.error .unauthorized, req, log)
  else if req.status ≠ .pending then (.error .notPending, req, log)
  else
    (.ok (),
      { req with
        status := .rejected
        processedAt := some now
        supervisorNotes := notes },
      log)

/-- The overlap predicate of `apply_leave`'s queryset filter:
`employee=user, status__in=['pending','approved'],
start_date__lte=end_date, end_date__gte=start_date`. -/
def leaveOverlaps (user : Nat) (startDate endDate : Int)
    (a : LeaveApplication) : Bool :=
  decide (a.employee = user)
    && (decide (a.status = ReqStatus.pending) || decide (a.status = ReqStatus.approved))
    && decide (a.startDate ≤ endDate) && decide (startDate ≤ a.endDate)

/-- `apply_leave` (leave_views.py:19-113), after required fields and date
parsing: leave-type gate, date-order gate, past-date gate, then the
overlap rejection, then creation of a pending application. -/
def apply_leave (user : Nat) (leaveType : String)
    (startDate endDate today : Int) (existing : List LeaveApplication) :
    Except ApiErr LeaveApplication × List LeaveApplication :=
  if ¬(leaveType = "sick" ∨ leaveType = "casual" ∨ leaveType = "emergency") then
    (.error .invalidLeaveType, existing)
  else if endDate < startDate then (.error .startAfterEnd, existing)
  else if startDate < today then (.error .pastStartDate, existing)
  else if existing.any (leaveOverlaps user startDate endDate) then
    (.error .overlappingLeave, existing)
  else
    let app : LeaveApplication :=
      { employee := user
        startDate := startDate
        endDate := endDate
        status := .pending
        leaveDays := endDate - startDate + 1 }
    (.ok app, existing ++ [app])

/-! Concrete states used by witnesses and counterexamples. -/

/-- An employee with the model defaults: login 09:30, grace 10 minutes. -/
def emp3 : Employee := ⟨3, 34200, 10⟩

def noCheckinLog : AttendanceLog :=
  ⟨3, none, none, 20000, .absent, .no_data, 0, false, false⟩

/-- A record with no check-in but a stale `needs_checkout_correction`
flag, reachable through the HR update endpoint (the serializer leaves
`check_in_time` and `needs_checkout_correction` writable). -/
def badFlagLog : AttendanceLog :=
  ⟨3, none, none, 20000, .absent, .no_data, 0, true, false⟩

/-- An open record carrying a stale nonzero `total_hours` (7.75h),
reachable by clearing `check_out_time` through the HR update endpoint
after a completed cycle (`total_hours` is read-only there and keeps its
value). -/
def staleHoursLog : AttendanceLog :=
  ⟨3, some (combine 20000 34200), none, 20000, .did_not_checkout, .late, 775, true, false⟩

def openLog : AttendanceLog :=
  ⟨3, some (combine 20000 34200), none, 20000, .did_not_checkout, .on_time, 0, true, false⟩

def closedLog : AttendanceLog :=
  ⟨3, some (combine 20000 34200), some (combine 20000 62100), 20000, .present, .late, 0, false, false⟩

/-- A record of today flagged for correction (employee 1, check-in 09:00). -/
def c2Log : AttendanceLog :=
  ⟨1, some (combine 20000 32400), none, 20000, .did_not_checkout, .late, 0, true, false⟩

/-- The request the submit endpoint creates for `c2Log` when 19:00 is
claimed: it violates all three `CheckoutRequest.clean` rules. -/
def c2Req : CheckoutRequest :=
  ⟨1, 2, 68400, "forgot to checkout", .pending, none, "", 1728000000⟩

/-- A scan instant: 09:45 on day 20000. -/
def t7 : Int := combine 20000 35100

/-- The record the scan endpoint persists for `emp3` at `t7`. -/
def scanRec : AttendanceLog :=
  ⟨3, some t7, none, 20000, .did_not_checkout, .late, 0, true, false⟩

def reqPending : CheckoutRequest := ⟨1, 2, 61200, "forgot", .pending, none, "", 100⟩

def reqApproved : CheckoutRequest := ⟨1, 2, 61200, "left early", .approved, some 5, "ok", 100⟩

def attLogC3 : AttendanceLog :=
  ⟨1, some (combine 19999 34200), none, 19999, .did_not_checkout, .late, 0, true, false⟩

def existingLeave : LeaveApplication := ⟨5, 100, 102, .pending, 3⟩

/-- The application `apply_leave` creates on success. -/
def newLeaveApp (user : Nat) (startDate endDate : Int) : LeaveApplication :=
  { employee := user
    startDate := startDate
    endDate := endDate
    status := .pending
    leaveDays := endDate - startDate + 1 }

/-- The request row after a rejection at time `now` with `notes`. -/
def rejectedReq (req : CheckoutRequest) (notes : String) (now : Int) :
    CheckoutRequest :=
  { req with
    status := .rejected
    supervisorNotes := notes
    processedAt := some now }

/-- The record a successful scan check-in by `emp` at `now` persists. -/
def scanResult (emp : Employee) (now : Int) : AttendanceLog :=
  { employee := emp.id
    checkInTime := some now
    checkOutTime := none
    date := dateOf now
    status := .did_not_checkout
    checkinStatus := calcCheckinStatus emp (dateOf now) (some now)
    totalHours := 0
    needsCheckoutCorrection := true
    autoCheckout := false }

/-! Theorems. -/

theorem leaveOverlaps_iff (user : Nat) (s e : Int) (a : LeaveApplication) :
    leaveOverlaps user s e a = true ↔
      a.employee = user ∧ (a.status = .pending ∨ a.status = .approved)
        ∧ a.startDate ≤ e ∧ s ≤ a.endDate := by
  simp [leaveOverlaps, and_assoc]

/-- Claim C1: for a check-in at `T` against expected time `E` with grace
`G` minutes, both classification routines return `on_time` iff
`T ≤ E + G`, `late` iff `E + G < T ≤` their late deadline
(`E + G + 60min` in the view helper, `E + 30min` in the model), and
`very_late` otherwise; the model routine returns `no_data` exactly when
no check-in is present.  The model part assumes a non-negative grace
period, which the field's default (10) satisfies. -/
theorem checkin_classification_thresholds (T E G : Int) (emp : Employee)
    (d t : Int) (log : AttendanceLog) (hG : 0 ≤ emp.graceTime) :
    (get_checkin_status T E G = .on_time ↔ T ≤ E + 60 * G)
    ∧ (get_checkin_status T E G = .late ↔ E + 60 * G < T ∧ T ≤ E + 60 * G + 3600)
    ∧ (get_checkin_status T E G = .very_late ↔ E + 60 * G + 3600 < T)
    ∧ (calcCheckinStatus emp d (some t) = .on_time ↔
        t ≤ combine d emp.loginTime + 60 * emp.graceTime)
    ∧ (calcCheckinStatus emp d (some t) = .late ↔
        combine d emp.loginTime + 60 * emp.graceTime < t
          ∧ t ≤ combine d emp.loginTime + 1800)
    ∧ (calcCheckinStatus emp d (some t) = .very_late ↔
        combine d emp.loginTime + 60 * emp.graceTime < t
          ∧ combine d emp.loginTime + 1800 < t)
    ∧ (calcCheckinStatus emp d log.checkInTime = .no_data ↔
        log.checkInTime = none) := by
  refine ⟨?_, ?_, ?_, ?_, ?_, ?_, ?_⟩
  · simp only [get_checkin_status]
    split_ifs with h1 h2 <;> simp_all <;> omega
  · simp only [get_checkin_status]
    split_ifs with h1 h2 <;> simp_all <;> omega
  · simp only [get_checkin_status]
    split_ifs with h1 h2 <;> simp_all <;> omega
  · simp only [calcCheckinStatus]
    split_ifs with h1 h2 h3 <;> simp_all <;> omega
  · simp only [calcCheckinStatus]
    split_ifs with h1 h2 h3 <;> simp_all <;> omega
  · simp only [calcCheckinStatus]
    split_ifs with h1 h2 h3 <;> simp_all <;> omega
  · cases hci : log.checkInTime with
    | none => simp [calcCheckinStatus]
    | some t' =>
      simp only [calcCheckinStatus]
      split_ifs <;> simp

theorem checkin_classification_thresholds_witness :
    0 ≤ (Employee.mk 3 34200 10).graceTime
    ∧ (get_checkin_status 100 0 1 = .late ↔
        (0 + 60 * 1 < (100 : Int) ∧ (100 : Int) ≤ 0 + 60 * 1 + 3600)) :=
  ⟨by decide,
    (checkin_classification_thresholds 100 0 1 ⟨3, 34200, 10⟩ 0 0
      noCheckinLog (by decide)).2.1⟩

/-- Claim C2: the public submit endpoint creates a request claiming 19:00
for a record dated the very day of submission, even though
`CheckoutRequest.clean` rejects that same data — `objects.create` never
runs `clean`, so the claimed-time and past-date validations are skipped on
this path. -/
theorem checkout_submit_skips_clean :
    request_checkout_correction 1 (some 2) c2Log false 68400
        "forgot to checkout" 1728000000 = .ok c2Req
    ∧ CheckoutRequest.clean c2Req c2Log 20000 = .error .checkoutAfterCutoff :=
  ⟨rfl, rfl⟩

/-- Claim C3: an approve call on a request that is no longer pending —
through either approve endpoint — returns the state-conflict error and
leaves the request and its attendance record untouched; the checkout
mutation is not reapplied. -/
theorem approve_requires_pending (role : Role) (userId : Nat)
    (notes : String) (now : Int) (emp : Employee)
    (req : CheckoutRequest) (log : AttendanceLog)
    (hrole : role = .supervisor ∨ role = .hr ∨ role = .superadmin)
    (hsup : role = .supervisor → req.supervisor = userId)
    (hst : req.status ≠ .pending) :
    update_checkout_request role userId .approved notes now emp req log
      = (.error .notPending, req, log)
    ∧ viewset_request_approve role notes now emp req log
      = (.error .notPending, req, log) := by
  rcases hrole with h | h | h <;> subst h
  · have hs := hsup rfl
    exact ⟨by simp [update_checkout_request, hst, hs],
      by simp [viewset_request_approve, hst]⟩
  · exact ⟨by simp [update_checkout_request, hst],
      by simp [viewset_request_approve, hst]⟩
  · exact ⟨by simp [update_checkout_request, hst],
      by simp [viewset_request_approve, hst]⟩

theorem approve_requires_pending_witness :
    reqApproved.status ≠ .pending
    ∧ update_checkout_request .hr 9 .approved "again" 7 emp3 reqApproved attLogC3
      = (.error .notPending, reqApproved, attLogC3) :=
  ⟨by decide,
    (approve_requires_pending .hr 9 "again" 7 emp3 reqApproved attLogC3
      (by decide) (by decide) (by decide)).1⟩

/-- Claim C4 counterexample: a record with no check-in but a stale
correction flag keeps the flag through `save`, so after the save the flag
is true while check-in is unset. -/
theorem save_needs_flag_counterexample :
    ¬(((badFlagLog.save emp3).needsCheckoutCorrection = true) ↔
      ((badFlagLog.save emp3).checkInTime.isSome = true
        ∧ (badFlagLog.save emp3).checkOutTime = none)) := by
  decide

/-- Claim C4 (amended): `save` never changes the two timestamps; after a
save of a record whose check-in is set, `needs_checkout_correction` is
true iff check-out is unset; when check-in is unset the flag is left
unchanged (so the claimed invariant can fail only for records without a
check-in). -/
theorem save_needs_correction_invariant (emp : Employee)
    (log : AttendanceLog) :
    ((log.save emp).checkInTime = log.checkInTime)
    ∧ ((log.save emp).checkOutTime = log.checkOutTime)
    ∧ (log.checkInTime.isSome = true →
        ((log.save emp).needsCheckoutCorrection = true ↔
          log.checkOutTime = none))
    ∧ (log.checkInTime = none →
        (log.save emp).needsCheckoutCorrection = log.needsCheckoutCorrection) := by
  unfold AttendanceLog.save
  rcases hci : log.checkInTime with _ | ci <;>
    rcases hco : log.checkOutTime with _ | co <;> simp_all

theorem save_needs_correction_invariant_witness :
    openLog.checkInTime.isSome = true
    ∧ ((openLog.save emp3).needsCheckoutCorrection = true ↔
        openLog.checkOutTime = none) :=
  ⟨by decide, (save_needs_correction_invariant emp3 openLog).2.2.1 (by decide)⟩

/-- Claim C5 counterexample: a record whose check-out is unset but whose
`total_hours` is a stale 7.75 keeps that value through `save`, so after
the mutation check-out is unset while `total_hours` is not 0.00. -/
theorem save_total_hours_counterexample :
    (staleHoursLog.save emp3).checkOutTime = none
    ∧ (staleHoursLog.save emp3).totalHours ≠ 0 := by
  decide

/-- Claim C5 (amended): after a save, `total_hours` equals
`round((check_out − check_in)/3600s, 2)` whenever both timestamps are
set; when check-out is unset the save leaves `total_hours` unchanged
(it is 0.00 only if it already was). -/
theorem save_total_hours_spec (emp : Employee) (log : AttendanceLog) :
    (∀ ci co, log.checkInTime = some ci → log.checkOutTime = some co →
      (log.save emp).totalHours = computeTotalHours ci co)
    ∧ (log.checkOutTime = none →
        (log.save emp).totalHours = log.totalHours) := by
  unfold AttendanceLog.save
  rcases hci : log.checkInTime with _ | ci <;>
    rcases hco : log.checkOutTime with _ | co <;> simp_all

theorem save_total_hours_spec_witness :
    closedLog.checkInTime = some (combine 20000 34200)
    ∧ closedLog.checkOutTime = some (combine 20000 62100)
    ∧ (closedLog.save emp3).totalHours
        = computeTotalHours (combine 20000 34200) (combine 20000 62100) :=
  ⟨rfl, rfl, (save_total_hours_spec emp3 closedLog).1 _ _ rfl rfl⟩

/-- Claim C6: whenever the local time-of-day is strictly past 18:00, both
checkout handlers return the past-cutoff error and leave the stored
records untouched, whatever those records are — the cutoff guard runs
before any record is selected. -/
theorem checkout_past_cutoff_rejected (emp : Employee) (now : Int)
    (logs : List AttendanceLog) (h : 64800 < timeOfDay now) :
    checkout_button emp now logs = (.error .pastCutoff, logs)
    ∧ viewset_checkout emp now logs = (.error .pastCutoff, logs) := by
  refine ⟨?_, ?_⟩
  · unfold checkout_button
    rw [if_pos h]
  · unfold viewset_checkout
    rw [if_pos h]

theorem checkout_past_cutoff_rejected_witness :
    64800 < timeOfDay (20000 * 86400 + 65000)
    ∧ checkout_button emp3 (20000 * 86400 + 65000) [openLog]
      = (.error .pastCutoff, [openLog]) :=
  ⟨by decide,
    (checkout_past_cutoff_rejected emp3 (20000 * 86400 + 65000) [openLog]
      (by decide)).1⟩

/-- Claim C7 counterexample: a scan check-in with no prior record today
succeeds, but the persisted record's status is `did_not_checkout`, not
`present` — the save hook reclassifies the provisional `present` because
check-out is unset. -/
theorem scan_checkin_status_counterexample :
    scan_checkin emp3 t7 [] = (.ok scanRec, [scanRec])
    ∧ scanRec.status ≠ .present := by
  exact ⟨rfl, by decide⟩

/-- Claim C7 (amended): a scan check-in fails with the already-checked-in
error and changes nothing when an open record exists for the employee
today; otherwise it appends exactly one new record with check-out unset,
hours 0.00, the correction flag set, status `did_not_checkout` (the
provisional `present` is overwritten by the save hook since check-out is
unset), and `checkin_status` as computed by the model's save-time
classification. -/
theorem scan_checkin_spec (emp : Employee) (now : Int)
    (logs : List AttendanceLog) :
    (logs.any (openFor emp.id (dateOf now)) = true →
      scan_checkin emp now logs = (.error .alreadyCheckedIn, logs))
    ∧ (logs.any (openFor emp.id (dateOf now)) = false →
      ∃ r, scan_checkin emp now logs = (.ok r, logs ++ [r])
        ∧ r.employee = emp.id
        ∧ r.checkInTime = some now
        ∧ r.checkOutTime = none
        ∧ r.date = dateOf now
        ∧ r.totalHours = 0
        ∧ r.status = .did_not_checkout
        ∧ r.needsCheckoutCorrection = true
        ∧ r.checkinStatus = calcCheckinStatus emp (dateOf now) (some now)) := by
  constructor
  · intro h
    simp [scan_checkin, h]
  · intro h
    refine ⟨scanResult emp now, ?_, rfl, rfl, rfl, rfl, rfl, rfl, rfl, rfl⟩
    simp [scan_checkin, AttendanceLog.save, scanResult, h]

theorem scan_checkin_spec_witness :
    (([] : List AttendanceLog).any (openFor emp3.id (dateOf t7)) = false)
    ∧ (∃ r, scan_checkin emp3 t7 [] = (.ok r, [] ++ [r])
        ∧ r.employee = emp3.id
        ∧ r.checkInTime = some t7
        ∧ r.checkOutTime = none
        ∧ r.date = dateOf t7
        ∧ r.totalHours = 0
        ∧ r.status = .did_not_checkout
        ∧ r.needsCheckoutCorrection = true
        ∧ r.checkinStatus = calcCheckinStatus emp3 (dateOf t7) (some t7)) :=
  ⟨rfl, (scan_checkin_spec emp3 t7 []).2 rfl⟩

/-- Claim C8: once the earlier gates pass, a leave submission is rejected
with the overlap error exactly when the same employee already holds a
pending or approved application with `existing.start ≤ new.end` and
`existing.end ≥ new.start`; rejected applications never block, and with
no blocking overlap a pending application is created. -/
theorem leave_overlap_rejection (user : Nat) (leaveType : String)
    (startDate endDate today : Int) (existing : List LeaveApplication)
    (htype : leaveType = "sick" ∨ leaveType = "casual" ∨ leaveType = "emergency")
    (horder : startDate ≤ endDate) (hfuture : today ≤ startDate) :
    ((apply_leave user leaveType startDate endDate today existing).1
        = .error .overlappingLeave ↔
      ∃ a ∈ existing, a.employee = user
        ∧ (a.status = .pending ∨ a.status = .approved)
        ∧ a.startDate ≤ endDate ∧ startDate ≤ a.endDate)
    ∧ ((¬∃ a ∈ existing, a.employee = user
        ∧ (a.status = .pending ∨ a.status = .approved)
        ∧ a.startDate ≤ endDate ∧ startDate ≤ a.endDate) →
      apply_leave user leaveType startDate endDate today existing
        = (.ok (newLeaveApp user startDate endDate),
           existing ++ [newLeaveApp user startDate endDate])) := by
  have hany : existing.any (leaveOverlaps user startDate endDate) = true ↔
      ∃ a ∈ existing, a.employee = user
        ∧ (a.status = .pending ∨ a.status = .approved)
        ∧ a.startDate ≤ endDate ∧ startDate ≤ a.endDate := by
    simp [List.any_eq_true, leaveOverlaps_iff]
  constructor
  · unfold apply_leave
    rw [if_neg (not_not_intro htype), if_neg (by omega), if_neg (by omega)]
    by_cases hb : existing.any (leaveOverlaps user startDate endDate) = true
    · rw [if_pos hb]
      simpa using hany.mp hb
    · rw [if_neg hb]
      simp only [Except.error.injEq]
      constructor
      · intro hcontr
        exact absurd hcontr (by simp)
      · intro hex
        exact absurd (hany.mpr hex) hb
  · intro hno
    have hb : ¬existing.any (leaveOverlaps user startDate endDate) = true :=
      fun hcontr => hno (hany.mp hcontr)
    unfold apply_leave
    rw [if_neg (not_not_intro htype), if_neg (by omega), if_neg (by omega),
      if_neg hb]
    rfl

theorem leave_overlap_rejection_witness :
    ("casual" = "sick" ∨ "casual" = "casual" ∨ "casual" = "emergency")
    ∧ (101 : Int) ≤ 103 ∧ (99 : Int) ≤ 101
    ∧ ((apply_leave 5 "casual" 101 103 99 [existingLeave]).1
        = .error .overlappingLeave ↔
      ∃ a ∈ [existingLeave], a.employee = 5
        ∧ (a.status = .pending ∨ a.status = .approved)
        ∧ a.startDate ≤ 103 ∧ (101 : Int) ≤ a.endDate) :=
  ⟨Or.inr (Or.inl rfl), by decide, by decide,
    (leave_overlap_rejection 5 "casual" 101 103 99 [existingLeave]
      (Or.inr (Or.inl rfl)) (by decide) (by decide)).1⟩

/-- Claim C9: rejecting a pending request — through either reject
endpoint — succeeds, rewrites only the request's status, processing
timestamp and notes, and returns the attendance record exactly as it
was. -/
theorem reject_updates_only_request (role : Role) (userId : Nat)
    (notes : String) (now : Int) (emp : Employee)
    (req : CheckoutRequest) (log : AttendanceLog)
    (hrole : role = .supervisor ∨ role = .hr ∨ role = .superadmin)
    (hsup : role = .supervisor → req.supervisor = userId)
    (hst : req.status = .pending) :
    update_checkout_request role userId .rejected notes now emp req log
      = (.ok (), rejectedReq req notes now, log)
    ∧ viewset_request_reject role notes now req log
      = (.ok (), rejectedReq req notes now, log) := by
  rcases hrole with h | h | h <;> subst h
  · have hs := hsup rfl
    exact ⟨by simp [update_checkout_request, rejectedReq, hst, hs],
      by simp [viewset_request_reject, rejectedReq, hst]⟩
  · exact ⟨by simp [update_checkout_request, rejectedReq, hst],
      by simp [viewset_request_reject, rejectedReq, hst]⟩
  · exact ⟨by simp [update_checkout_request, rejectedReq, hst],
      by simp [viewset_request_reject, rejectedReq, hst]⟩

theorem reject_updates_only_request_witness :
    reqPending.status = .pending
    ∧ viewset_request_reject .superadmin "no" 7 reqPending attLogC3
      = (.ok (), rejectedReq reqPending "no" 7, attLogC3) :=
  ⟨rfl,
    (reject_updates_only_request .superadmin 9 "no" 7 emp3 reqPending attLogC3
      (by decide) (by decide) rfl).2⟩

/-- Claim C10: a successful scan check-in persists the model save-time
classification: the stored `checkin_status` equals
`_calculate_checkin_status` (grace deadline `expected + grace`, very-late
threshold `expected + 30min`); more generally, saving a record whose
check-in is set overwrites any `checkin_status` the caller assigned —
including the scan view's grace-deadline-plus-60-minutes value — with the
model's classification. -/
theorem scan_checkin_model_classification_wins (emp : Employee) (now : Int)
    (logs : List AttendanceLog) (l : AttendanceLog) (s : CheckinStatus)
    (h : logs.any (openFor emp.id (dateOf now)) = false)
    (hl : l.checkInTime.isSome = true) :
    (∃ r, scan_checkin emp now logs = (.ok r, logs ++ [r])
      ∧ r.checkinStatus = calcCheckinStatus emp (dateOf now) (some now))
    ∧ (AttendanceLog.save emp { l with checkinStatus := s }).checkinStatus
        = calcCheckinStatus emp l.date l.checkInTime := by
  constructor
  · refine ⟨scanResult emp now, ?_, rfl⟩
    simp [scan_checkin, AttendanceLog.save, scanResult, h]
  · rcases hci : l.checkInTime with _ | t
    · simp [hci] at hl
    · rcases hco : l.checkOutTime with _ | co <;>
        simp_all [AttendanceLog.save]

theorem scan_checkin_model_classification_wins_witness :
    (([] : List AttendanceLog).any (openFor emp3.id (dateOf t7)) = false)
    ∧ openLog.checkInTime.isSome = true
    ∧ (AttendanceLog.save emp3 { openLog with checkinStatus := .very_late }).checkinStatus
        = calcCheckinStatus emp3 openLog.date openLog.checkInTime :=
  ⟨rfl, rfl,
    (scan_checkin_model_classification_wins emp3 t7 [] openLog .very_late
      rfl rfl).2⟩
